import Mathlib

/-!
Verification of the git-commit-ai client (src/main.c).

The development shallowly embeds the request/response pipeline of the C
program: the JSON values handled by the cJSON library, the response parsing
and text segmentation of `parse_claude_response` (main.c:384-483), the
request construction and HTTP status handling of `call_claude_api`
(main.c:218-381), the response accumulator `WriteMemoryCallback`
(main.c:44-62), the API-key trimming of `read_api_key` and `trim_string`
(main.c:184-215), and the top-level control flow of `main` (main.c:528-742).
File reads, the network transfer itself, and diagnostic printing are
abstracted as inputs to these functions; JSON bodies arriving over the wire
are represented by the result of cJSON's parse, an `Option Json` whose
`none` stands for a body that is not valid JSON.
-/

namespace CommitAI

/-- JSON values as built and inspected through the cJSON library.  Numbers
are carried as exact rationals; the only numbers the program ever builds
are the integer 1024 and the constant 0.5, both exactly representable. -/
inductive Json where
  | null
  | bool (b : Bool)
  | num (q : Rat)
  | str (s : String)
  | arr (items : List Json)
  | obj (fields : List (String × Json))

/-- ASCII lower-casing, as done by cJSON's case-insensitive key compare
(`tolower` on each byte). -/
def ascii_lower (c : Char) : Char :=
  if 'A' ≤ c ∧ c ≤ 'Z' then Char.ofNat (c.toNat + 32) else c

/-- cJSON object-key comparison: case-insensitive byte-wise equality. -/
def key_eq (a b : String) : Bool :=
  a.data.map ascii_lower = b.data.map ascii_lower

/-- Walk an object's member list and return the first value whose key
matches case-insensitively, as cJSON's `get_object_item` does. -/
def findField : List (String × Json) → String → Option Json
  | [], _ => none
  | (k, v) :: rest, key => if key_eq k key then some v else findField rest key

/-- `cJSON_GetObjectItem`: `none` when the value is not an object or the
key is absent (on a non-object value cJSON finds no named child). -/
def cJSON_GetObjectItem (j : Json) (key : String) : Option Json :=
  match j with
  | Json.obj fields => findField fields key
  | _ => none

/-- `cJSON_GetArrayItem` on the arrays the program inspects: the i-th
element, `none` when out of range. -/
def cJSON_GetArrayItem (j : Json) (i : Nat) : Option Json :=
  match j with
  | Json.arr items => items.get? i
  | _ => none

/-- `cJSON_IsArray`. -/
def cJSON_IsArray (j : Json) : Bool :=
  match j with
  | Json.arr _ => true
  | _ => false

/-- The characters skipped by the leading-blank loop of
`parse_claude_response` (main.c:442-444). -/
def is_blank_char (c : Char) : Bool :=
  c = '\n' || c = '\r'

/-- The leading-blank skip of main.c:442-444: advance `line_start` past
every leading newline or carriage return. -/
def skip_blank (l : List Char) : List Char :=
  l.dropWhile is_blank_char

/-- `strchr(line_start, chr(10))` of main.c:447 together with the two copies at
main.c:449-471: when a newline exists, return the characters before the
first newline and the characters after it. -/
def split_at_newline : List Char → Option (List Char × List Char)
  | [] => none
  | c :: rest =>
    if c = '\n' then some ([], rest)
    else
      match split_at_newline rest with
      | some (b, a) => some (c :: b, a)
      | none => none

/-- The text-segmentation of main.c:438-479.  After skipping leading blank
characters, the title is everything before the first newline and the
description everything after it (main.c:449-471: the `strncpy` of
`desc_len - 1` bytes starting at `line_end + 1` copies exactly the suffix
after the newline and then null-terminates).  When no newline remains, the
whole remaining text is the title and the description is empty
(main.c:474-479). -/
def segment_text (text : List Char) : List Char × List Char :=
  match split_at_newline (skip_blank text) with
  | some (b, a) => (b, a)
  | none => (skip_blank text, [])

/-- The extraction steps of `parse_claude_response` (main.c:396-434): parse
the body (`none` input = `cJSON_Parse` failed), fetch `content`, require an
array, take its first element, fetch `text`, require a string. -/
def extract_text : Option Json → Option String
  | none => none
  | some root =>
    match cJSON_GetObjectItem root "content" with
    | none => none
    | some content =>
      if cJSON_IsArray content then
        match cJSON_GetArrayItem content 0 with
        | none => none
        | some first =>
          match cJSON_GetObjectItem first "text" with
          | some (Json.str s) => some s
          | _ => none
      else none

/-- `parse_claude_response` (main.c:384-483) over the cJSON parse of the
response body: `none` is the failure return 0 (both output strings left
unset), `some (title, description)` the success return 1. -/
def parse_claude_response (r : Option Json) : Option (String × String) :=
  match extract_text r with
  | none => none
  | some text =>
    some (String.mk (segment_text text.data).1, String.mk (segment_text text.data).2)

/-- The `snprintf` formatting used to render the message content
(main.c:268-279).  The format string is walked left to right; a percent
followed by `s` consumes the next string argument and splices it in
verbatim (the spliced text is never re-scanned).  The fixed template below
contains no conversion other than the two `s` conversions, so no other
specifier is modelled: a stray percent is copied through. -/
def format_s : List Char → List (List Char) → List Char
  | [], _ => []
  | c :: rest, args =>
    if c = '%' then
      match rest, args with
      | [], _ => [c]
      | s :: rest2, a :: args2 =>
        if s = 's' then a ++ format_s rest2 args2
        else c :: s :: format_s rest2 (a :: args2)
      | s :: rest2, [] =>
        if s = 's' then format_s rest2 []
        else c :: s :: format_s rest2 []
    else c :: format_s rest args

/-- The `content_template` literal of main.c:265. -/
def content_template : String :=
  "Here is my profile:\n\n%s\n\nHere is a git diff that needs review:\n\n%s\n\nPlease provide a concise title and description of the changes."

/-- The `content` string built at main.c:268-279: the template rendered by
`snprintf` with the profile and the git diff as the two `s` arguments. -/
def render_content (profile git_diff : String) : String :=
  String.mk (format_s content_template.data [profile.data, git_diff.data])

/-- The rendering contract as the specification words it: the fixed
wording with profile and diff substituted verbatim in place of the two
placeholders. -/
def spec_render (profile git_diff : String) : String :=
  "Here is my profile:\n\n" ++ profile ++
    "\n\nHere is a git diff that needs review:\n\n" ++ git_diff ++
    "\n\nPlease provide a concise title and description of the changes."

/-- The request payload built at main.c:235-284: model, max_tokens 1024,
temperature 0.5, and a messages array holding the single user message whose
content is the rendered template. -/
def request_json (profile git_diff : String) : Json :=
  Json.obj
    [("model", Json.str "claude-3-7-sonnet-20250219"),
     ("max_tokens", Json.num 1024),
     ("temperature", Json.num (1 / 2)),
     ("messages", Json.arr
       [Json.obj
         [("role", Json.str "user"),
          ("content", Json.str (render_content profile git_diff))]])]

/-- The result logic of `call_claude_api` after `curl_easy_perform`
(main.c:351-366 and 380): on a transport failure the function falls through
and returns NULL; on a 2xx status it returns a copy of the accumulated
body; on any other status it prints the status and body as diagnostics and
returns NULL.  The accumulated body is carried as the `Option Json` that
`cJSON_Parse` would later yield on it. -/
def call_claude_api (curl_ok : Bool) (http_code : Int) (body : Option Json) :
    Option (Option Json) :=
  if curl_ok then
    if 200 ≤ http_code ∧ http_code < 300 then some body else none
  else none

/-- The cURL response accumulator `struct MemoryStruct` (main.c:38-41):
the allocated bytes and the logical size (the buffer holds `size` data
bytes plus one terminator slot). -/
structure MemoryStruct where
  memory : List Nat
  size : Nat
  deriving DecidableEq

/-- The initial accumulator of main.c:226-232: `malloc(1)` yields one
uninitialized byte (modelled by an arbitrary value `g`) and size 0. -/
def initial_chunk (g : Nat) : MemoryStruct :=
  { memory := [g], size := 0 }

/-- `WriteMemoryCallback` (main.c:44-62), assuming the `realloc` succeeds:
grow to `size + realsize + 1` bytes (keeping the first `size` data bytes),
copy the chunk in at offset `size`, bump the size, and write the
terminating 0 at the new end. -/
def WriteMemoryCallback (contents : List Nat) (mem : MemoryStruct) : MemoryStruct :=
  { memory := mem.memory.take mem.size ++ contents ++ [0],
    size := mem.size + contents.length }

/-- Deliver a sequence of chunks to the accumulator in arrival order,
starting from the freshly malloc'd state with uninitialized byte `g`. -/
def accumulate (g : Nat) (chunks : List (List Nat)) : MemoryStruct :=
  chunks.foldl (fun m c => WriteMemoryCallback c m) (initial_chunk g)

/-- The whitespace set of `trim_string` (main.c:189 and 199): space,
newline, carriage return, tab. -/
def is_trim_char (c : Char) : Bool :=
  c = ' ' || c = '\n' || c = '\r' || c = '\t'

/-- `trim_string` (main.c:184-205): drop every leading whitespace
character, then erase the maximal whitespace suffix — the trailing loop's
`end > str` guard never erases the first remaining character. -/
def trim_string (l : List Char) : List Char :=
  match l.dropWhile is_trim_char with
  | [] => []
  | c :: rest => c :: (rest.reverse.dropWhile is_trim_char).reverse

/-- `read_api_key` (main.c:208-215) applied to the key file's content:
the raw content trimmed in place. -/
def read_api_key (content : List Char) : List Char :=
  trim_string content

/-- Removal of all leading and trailing whitespace, as the claim words it. -/
def spec_trim (l : List Char) : List Char :=
  ((l.dropWhile is_trim_char).reverse.dropWhile is_trim_char).reverse

/-- The `x-api-key` header built at main.c:315-317: `snprintf` into a
512-byte buffer writes at most 511 characters (plus the terminator), so
the header is the concatenation truncated to 511 characters. -/
def auth_header (api_key : List Char) : List Char :=
  List.take 511 ("x-api-key: ".data ++ api_key)

/-- The header actually sent for a given key-file content: the content is
first trimmed by `read_api_key` (main.c:642, 208-215), then formatted into
the header (main.c:315-317). -/
def header_for_key_file (content : List Char) : List Char :=
  auth_header (read_api_key content)

/-- The external inputs `main` (main.c:528-742) reacts to, in the order it
consults them: existence of the key and profile files, whether a diff was
supplied (argument or -d file), the outcomes of the three reads, and the
outcome of the HTTP call (transport success flag, status code, body). -/
structure MainInput where
  keyFileExists : Bool
  profileFileExists : Bool
  diffGiven : Bool
  apiKeyRead : Option String
  profileRead : Option String
  diffRead : Option String
  curlOk : Bool
  httpCode : Int
  body : Option Json

/-- What a run of `main` yields: the process exit status, whether
`parse_claude_response` was invoked, and its result when it was. -/
structure MainOutcome where
  exitCode : Nat
  parseInvoked : Bool
  result : Option (String × String)
  deriving DecidableEq

/-- The control flow of `main` (main.c:528-742): each failed check returns
1 immediately; once `call_claude_api` returns a body, the response is
parsed and `main` returns 0 whether or not the parse succeeded
(main.c:719-741: the parse-failure branch only prints a message before the
final `return 0`). -/
def run_main (i : MainInput) : MainOutcome :=
  if i.keyFileExists = false then ⟨1, false, none⟩
  else if i.profileFileExists = false then ⟨1, false, none⟩
  else if i.diffGiven = false then ⟨1, false, none⟩
  else
    match i.apiKeyRead with
    | none => ⟨1, false, none⟩
    | some _ =>
      match i.profileRead with
      | none => ⟨1, false, none⟩
      | some _ =>
        match i.diffRead with
        | none => ⟨1, false, none⟩
        | some _ =>
          match call_claude_api i.curlOk i.httpCode i.body with
          | none => ⟨1, false, none⟩
          | some resp => ⟨0, true, parse_claude_response resp⟩

/-! ### Helper lemmas -/

lemma dropWhile_head_false {α : Type} (p : α → Bool) :
    ∀ (l : List α) (c : α) (rest : List α), l.dropWhile p = c :: rest → p c = false := by
  intro l
  induction l with
  | nil => intro c rest h; simp [List.dropWhile] at h
  | cons x xs ih =>
    intro c rest h
    by_cases hx : p x
    · rw [List.dropWhile_cons_of_pos hx] at h
      exact ih c rest h
    · rw [List.dropWhile_cons_of_neg hx] at h
      cases h
      simpa using hx

lemma dropWhile_append_singleton {α : Type} (p : α → Bool) (c : α) (h : p c = false) :
    ∀ xs : List α, (xs ++ [c]).dropWhile p = xs.dropWhile p ++ [c] := by
  intro xs
  induction xs with
  | nil => simp [List.dropWhile, h]
  | cons x xs ih =>
    by_cases hx : p x
    · simp only [List.cons_append, List.dropWhile_cons_of_pos hx, ih]
    · simp only [List.cons_append, List.dropWhile_cons_of_neg hx]

lemma mem_of_mem_dropWhile {α : Type} (p : α → Bool) (a : α) :
    ∀ l : List α, a ∈ l.dropWhile p → a ∈ l := by
  intro l
  induction l with
  | nil => simp [List.dropWhile]
  | cons x xs ih =>
    intro h
    by_cases hx : p x
    · rw [List.dropWhile_cons_of_pos hx] at h
      exact List.mem_cons_of_mem x (ih h)
    · rwa [List.dropWhile_cons_of_neg hx] at h

lemma split_at_newline_append (before after : List Char) (h : '\n' ∉ before) :
    split_at_newline (before ++ '\n' :: after) = some (before, after) := by
  induction before with
  | nil => simp [split_at_newline]
  | cons c cs ih =>
    have hc : c ≠ '\n' := fun hh => h (hh ▸ List.mem_cons_self c cs)
    have hcs : '\n' ∉ cs := fun hh => h (List.mem_cons_of_mem c hh)
    simp only [List.cons_append, split_at_newline, hc, if_false, List.append_eq]
    rw [ih hcs]

lemma split_at_newline_eq_none (l : List Char) (h : '\n' ∉ l) :
    split_at_newline l = none := by
  induction l with
  | nil => rfl
  | cons c cs ih =>
    have hc : c ≠ '\n' := fun hh => h (hh ▸ List.mem_cons_self c cs)
    have hcs : '\n' ∉ cs := fun hh => h (List.mem_cons_of_mem c hh)
    simp only [split_at_newline, hc, if_false]
    rw [ih hcs]

lemma split_at_newline_sound :
    ∀ (l b a : List Char), split_at_newline l = some (b, a) → l = b ++ '\n' :: a := by
  intro l
  induction l with
  | nil => intro b a h; simp [split_at_newline] at h
  | cons c cs ih =>
    intro b a h
    by_cases hc : c = '\n'
    · subst hc
      simp [split_at_newline] at h
      obtain ⟨hb, ha⟩ := h
      subst hb
      subst ha
      rfl
    · simp only [split_at_newline, hc, if_false] at h
      cases hsp : split_at_newline cs with
      | none => rw [hsp] at h; simp at h
      | some p =>
        rw [hsp] at h
        obtain ⟨b0, a0⟩ := p
        simp only [Option.some.injEq, Prod.mk.injEq] at h
        rw [← h.1, ← h.2]
        simpa using ih b0 a0 hsp

lemma skip_blank_head_not_blank (t : List Char) (c : Char) (rest : List Char)
    (h : skip_blank t = c :: rest) : is_blank_char c = false :=
  dropWhile_head_false is_blank_char t c rest h

lemma segment_text_of_split (t b a : List Char)
    (hsp : split_at_newline (skip_blank t) = some (b, a)) :
    segment_text t = (b, a) := by
  unfold segment_text
  rw [hsp]

lemma segment_text_of_no_split (t : List Char)
    (hsp : split_at_newline (skip_blank t) = none) :
    segment_text t = (skip_blank t, []) := by
  unfold segment_text
  rw [hsp]

/-- The extracted title is empty exactly when the whole text is blank:
after the blank skip either nothing remains, or the first remaining
character is not blank, so both the newline branch and the single-line
branch produce a non-empty title. -/
lemma segment_title_eq_nil_iff (t : List Char) :
    (segment_text t).1 = [] ↔ ∀ c ∈ t, is_blank_char c = true := by
  have hblank : skip_blank t = [] ↔ ∀ c ∈ t, is_blank_char c = true := by
    simp [skip_blank, List.dropWhile_eq_nil_iff]
  rw [← hblank]
  cases hsp : split_at_newline (skip_blank t) with
  | none =>
    rw [segment_text_of_no_split t hsp]
  | some p =>
    obtain ⟨b, a⟩ := p
    have hdec : skip_blank t = b ++ '\n' :: a := split_at_newline_sound _ _ _ hsp
    rw [segment_text_of_split t b a hsp]
    constructor
    · intro hb
      subst hb
      have := skip_blank_head_not_blank t '\n' a (by simpa using hdec)
      simp [is_blank_char] at this
    · intro hnil
      rw [hnil] at hdec
      exact absurd hdec.symm (by simp)

set_option maxRecDepth 8000 in
lemma render_eq_spec (P D : String) : render_content P D = spec_render P D := by
  apply String.ext
  show format_s content_template.data [P.data, D.data] = _
  simp only [spec_render, String.data_append]
  simp [format_s, content_template]

lemma trim_eq_spec_trim (l : List Char) : trim_string l = spec_trim l := by
  unfold trim_string spec_trim
  cases h : l.dropWhile is_trim_char with
  | nil => simp
  | cons c rest =>
    have hc : is_trim_char c = false := dropWhile_head_false _ _ _ _ h
    rw [List.reverse_cons, dropWhile_append_singleton is_trim_char c hc, List.reverse_append]
    simp

lemma accumulate_from_invariant (chunks : List (List Nat)) :
    ∀ d : List Nat,
      List.foldl (fun m c => WriteMemoryCallback c m)
          ⟨d ++ [0], d.length⟩ chunks =
        ⟨d ++ chunks.flatten ++ [0], (d ++ chunks.flatten).length⟩ := by
  induction chunks with
  | nil => intro d; simp
  | cons c cs ih =>
    intro d
    simp only [List.foldl_cons]
    have hstep : WriteMemoryCallback c ⟨d ++ [0], d.length⟩ =
        ⟨(d ++ c) ++ [0], (d ++ c).length⟩ := by
      simp [WriteMemoryCallback, List.take_left]
    rw [hstep, ih (d ++ c)]
    simp [List.flatten_cons]

/-- On a text without newlines, the blank skip removes exactly the leading
carriage returns. -/
lemma dropWhile_blank_eq_dropWhile_cr :
    ∀ l : List Char, '\n' ∉ l →
      l.dropWhile is_blank_char = l.dropWhile (· == '\r') := by
  intro l
  induction l with
  | nil => intro _; rfl
  | cons c cs ih =>
    intro hnl
    have hc : c ≠ '\n' := fun hh => hnl (hh ▸ List.mem_cons_self c cs)
    have hcs : '\n' ∉ cs := fun hh => hnl (List.mem_cons_of_mem c hh)
    by_cases hr : c = '\r'
    · subst hr
      rw [List.dropWhile_cons_of_pos (by simp [is_blank_char]),
        List.dropWhile_cons_of_pos (by simp)]
      exact ih hcs
    · rw [List.dropWhile_cons_of_neg (by simp [is_blank_char, hc, hr]),
        List.dropWhile_cons_of_neg (by simp [hr])]

lemma string_mk_eq_empty_iff (l : List Char) : String.mk l = "" ↔ l = [] := by
  constructor
  · intro h
    have := congrArg String.data h
    simpa using this
  · intro h; subst h; rfl

lemma is_blank_char_iff (c : Char) : is_blank_char c = true ↔ c = '\n' ∨ c = '\r' := by
  simp [is_blank_char]

/-! ### Claim theorems -/

/-- Claim C1 (amended): whenever `parse_claude_response` succeeds, the
title is non-empty exactly when the extracted text contains at least one
character other than newline and carriage return; on a text that is empty
or consists only of such characters, parsing still succeeds and the title
is the empty string. -/
theorem parse_title_empty_iff_blank_text (r : Option Json) (text : String)
    (h : extract_text r = some text) :
    ∃ t d, parse_claude_response r = some (t, d) ∧
      (t = "" ↔ ∀ c ∈ text.data, c = '\n' ∨ c = '\r') := by
  refine ⟨String.mk (segment_text text.data).1, String.mk (segment_text text.data).2, ?_, ?_⟩
  · unfold parse_claude_response
    rw [h]
  · rw [string_mk_eq_empty_iff, segment_title_eq_nil_iff]
    constructor
    · intro hb c hc
      exact (is_blank_char_iff c).mp (hb c hc)
    · intro hb c hc
      exact (is_blank_char_iff c).mpr (hb c hc)

/-- Witness for C1 on the concrete response whose text is
"Fix bug\nBody". -/
theorem parse_title_empty_iff_blank_text_witness :
    extract_text (some (Json.obj [("content",
        Json.arr [Json.obj [("text", Json.str "Fix bug\nBody")]])])) =
      some "Fix bug\nBody" ∧
    ∃ t d, parse_claude_response (some (Json.obj [("content",
        Json.arr [Json.obj [("text", Json.str "Fix bug\nBody")]])])) = some (t, d) ∧
      (t = "" ↔ ∀ c ∈ ("Fix bug\nBody" : String).data, c = '\n' ∨ c = '\r') :=
  ⟨rfl, parse_title_empty_iff_blank_text _ "Fix bug\nBody" rfl⟩

/-- Counterexample to C1 as stated: on the response whose extracted text is
the empty string, `parse_claude_response` succeeds (returns 1) yet the
title it extracts is the empty string. -/
theorem parse_succeeds_with_empty_title_on_empty_text :
    parse_claude_response (some (Json.obj [("content",
        Json.arr [Json.obj [("text", Json.str "")]])])) = some ("", "") := by
  rfl

/-- Claim C2 (code bug): with the key and profile files present, a diff
supplied, all reads succeeding, and the HTTP call succeeding with status
200 but a body that is not valid JSON, `main` invokes the parser, the
parse fails, and `main` nevertheless exits with status 0 — the
parse-failure branch of main.c:731-733 only prints a message before the
final `return 0` at main.c:741. -/
theorem main_exits_zero_despite_parse_failure :
    run_main ⟨true, true, true, some "key", some "profile", some "diff",
        true, 200, none⟩ =
      ⟨0, true, none⟩ ∧ parse_claude_response none = none :=
  ⟨rfl, rfl⟩

/-- Claim C3: when the extracted text still contains a newline after the
leading blank skip, parsing succeeds; the title is exactly the characters
before that newline and the description exactly the characters after it. -/
theorem parse_splits_title_description (r : Option Json) (text : String)
    (before after : List Char) (h : extract_text r = some text)
    (hs : skip_blank text.data = before ++ '\n' :: after)
    (hnb : '\n' ∉ before) :
    parse_claude_response r = some (String.mk before, String.mk after) := by
  have hseg : segment_text text.data = (before, after) := by
    apply segment_text_of_split
    rw [hs]
    exact split_at_newline_append before after hnb
  simp only [parse_claude_response, h]
  rw [hseg]

/-- Witness for C3 on the specification's own example text. -/
theorem parse_splits_title_description_witness :
    skip_blank ("\n\nFix bug\nThis patch fixes X" : String).data =
      ("Fix bug" : String).data ++ '\n' :: ("This patch fixes X" : String).data ∧
    '\n' ∉ ("Fix bug" : String).data ∧
    parse_claude_response (some (Json.obj [("content",
        Json.arr [Json.obj [("text", Json.str "\n\nFix bug\nThis patch fixes X")]])])) =
      some (String.mk ("Fix bug" : String).data, String.mk ("This patch fixes X" : String).data) :=
  ⟨by decide, by decide,
    parse_splits_title_description _ "\n\nFix bug\nThis patch fixes X" _ _ rfl
      (by decide) (by decide)⟩

/-- Claim C4 (amended): on an extracted text with no newline, parsing
succeeds with an empty description and the title equal to the text with
its leading carriage-return characters removed — the blank-skip loop of
main.c:442-444 runs before the newline search, so leading CR characters do
not survive into the title. -/
theorem parse_no_newline_title_drops_leading_cr (r : Option Json) (text : String)
    (h : extract_text r = some text) (hnl : '\n' ∉ text.data) :
    parse_claude_response r =
      some (String.mk (text.data.dropWhile (· == '\r')), "") := by
  have hskip : skip_blank text.data = text.data.dropWhile (· == '\r') :=
    dropWhile_blank_eq_dropWhile_cr text.data hnl
  have hnone : split_at_newline (skip_blank text.data) = none := by
    apply split_at_newline_eq_none
    intro hmem
    exact hnl (mem_of_mem_dropWhile is_blank_char '\n' text.data hmem)
  have hseg : segment_text text.data = (text.data.dropWhile (· == '\r'), []) := by
    rw [segment_text_of_no_split text.data hnone, hskip]
  simp only [parse_claude_response, h]
  rw [hseg]

/-- Witness for C4's amended statement on a text with leading CRs. -/
theorem parse_no_newline_title_drops_leading_cr_witness :
    '\n' ∉ ("\r\rOnly one line" : String).data ∧
    parse_claude_response (some (Json.obj [("content",
        Json.arr [Json.obj [("text", Json.str "\r\rOnly one line")]])])) =
      some (String.mk (("\r\rOnly one line" : String).data.dropWhile (· == '\r')), "") :=
  ⟨by decide,
    parse_no_newline_title_drops_leading_cr _ "\r\rOnly one line" rfl (by decide)⟩

/-- Counterexample to C4 as stated: the text "\rHi" contains no newline,
yet the parsed title is "Hi", not the entire text. -/
theorem parse_strips_leading_cr_counterexample :
    parse_claude_response (some (Json.obj [("content",
        Json.arr [Json.obj [("text", Json.str "\rHi")]])])) = some ("Hi", "") ∧
      ("Hi" : String) ≠ "\rHi" :=
  ⟨rfl, by decide⟩

/-- Claim C5: on every malformed response — unparsable body, `content`
missing, `content` not an array, `content` an empty array, or a first item
without a string `text` member — `parse_claude_response` fails, returning
`none` (the C function returns 0 with both output strings unset). -/
theorem parse_fails_on_malformed_response (r : Option Json)
    (h : r = none
      ∨ ∃ j, r = some j ∧
        (cJSON_GetObjectItem j "content" = none
          ∨ (∃ c, cJSON_GetObjectItem j "content" = some c ∧ cJSON_IsArray c = false)
          ∨ cJSON_GetObjectItem j "content" = some (Json.arr [])
          ∨ (∃ first rest, cJSON_GetObjectItem j "content" = some (Json.arr (first :: rest)) ∧
              ∀ s, cJSON_GetObjectItem first "text" ≠ some (Json.str s)))) :
    parse_claude_response r = none := by
  have hext : extract_text r = none := by
    rcases h with rfl | ⟨j, rfl, hj⟩
    · rfl
    · rcases hj with hnone | ⟨c, hc, hnotarr⟩ | hempty | ⟨first, rest, hfirst, htext⟩
      · simp [extract_text, hnone]
      · simp [extract_text, hc, hnotarr]
      · simp [extract_text, hempty, cJSON_IsArray, cJSON_GetArrayItem]
      · cases htxt : cJSON_GetObjectItem first "text" with
        | none =>
          simp [extract_text, hfirst, cJSON_IsArray, cJSON_GetArrayItem, htxt]
        | some v =>
          cases v with
          | str s => exact absurd htxt (htext s)
          | null =>
            simp [extract_text, hfirst, cJSON_IsArray, cJSON_GetArrayItem, htxt]
          | bool b =>
            simp [extract_text, hfirst, cJSON_IsArray, cJSON_GetArrayItem, htxt]
          | num q =>
            simp [extract_text, hfirst, cJSON_IsArray, cJSON_GetArrayItem, htxt]
          | arr items =>
            simp [extract_text, hfirst, cJSON_IsArray, cJSON_GetArrayItem, htxt]
          | obj fields =>
            simp [extract_text, hfirst, cJSON_IsArray, cJSON_GetArrayItem, htxt]
  unfold parse_claude_response
  rw [hext]

/-- Witness for C5 on the specification's example body with an empty
content array. -/
theorem parse_fails_on_malformed_response_witness :
    cJSON_GetObjectItem (Json.obj [("content", Json.arr [])]) "content" =
      some (Json.arr []) ∧
    parse_claude_response (some (Json.obj [("content", Json.arr [])])) = none :=
  ⟨rfl, parse_fails_on_malformed_response _
    (Or.inr ⟨_, rfl, Or.inr (Or.inr (Or.inl rfl))⟩)⟩

/-- Claim C6: for every HTTP status outside 200-299 and every body,
`call_claude_api` returns failure (NULL), and `main` never hands the body
to `parse_claude_response` — the parser runs only when `call_claude_api`
returned a response (main.c:707-719). -/
theorem non_2xx_returns_none_and_skips_parsing (i : MainInput)
    (h : i.httpCode < 200 ∨ 300 ≤ i.httpCode) :
    call_claude_api i.curlOk i.httpCode i.body = none ∧
      (run_main i).parseInvoked = false := by
  have hcall : call_claude_api i.curlOk i.httpCode i.body = none := by
    unfold call_claude_api
    cases hcurl : i.curlOk with
    | false => simp
    | true =>
      simp only [if_true]
      have : ¬(200 ≤ i.httpCode ∧ i.httpCode < 300) := by
        rcases h with h | h
        · intro hh; omega
        · intro hh; omega
      simp [this]
  refine ⟨hcall, ?_⟩
  unfold run_main
  rw [hcall]
  rcases i with ⟨kfe, pfe, dg, akr, pr, dr, co, code, body⟩
  cases kfe <;> cases pfe <;> cases dg <;>
    cases akr <;> cases pr <;> cases dr <;> rfl

/-- Witness for C6 at the specification's example status 404. -/
theorem non_2xx_returns_none_and_skips_parsing_witness :
    ((404 : Int) < 200 ∨ 300 ≤ (404 : Int)) ∧
    (call_claude_api true 404 (some Json.null) = none ∧
      (run_main ⟨true, true, true, some "key", some "profile", some "diff",
          true, 404, some Json.null⟩).parseInvoked = false) :=
  ⟨by decide,
    non_2xx_returns_none_and_skips_parsing
      ⟨true, true, true, some "key", some "profile", some "diff",
        true, 404, some Json.null⟩ (by decide)⟩

/-- Claim C7: for every profile and diff (empty strings, newlines, and
percent signs included), the `snprintf`-rendered message content equals
the fixed template wording with the two strings substituted verbatim. -/
theorem rendered_content_matches_template (P D : String) :
    render_content P D = spec_render P D :=
  render_eq_spec P D

/-- Claim C8 (amended): delivering any nonempty sequence of chunks to the
accumulator (every allocation succeeding) yields a buffer that is exactly
the concatenation of the chunks in arrival order followed by the 0
terminator, with the tracked size equal to the concatenation's length.
The nonemptiness proviso is forced: before the first callback the single
`malloc(1)` byte is uninitialized. -/
theorem accumulate_concatenates_chunks (g : Nat) (chunks : List (List Nat))
    (h : chunks ≠ []) :
    (accumulate g chunks).memory = chunks.flatten ++ [0] ∧
      (accumulate g chunks).size = chunks.flatten.length := by
  cases chunks with
  | nil => exact absurd rfl h
  | cons c cs =>
    unfold accumulate initial_chunk
    simp only [List.foldl_cons]
    have h1 : WriteMemoryCallback c ⟨[g], 0⟩ = ⟨c ++ [0], c.length⟩ := by
      simp [WriteMemoryCallback]
    rw [h1, accumulate_from_invariant cs c]
    simp [List.flatten_cons]

/-- Witness for C8 with three chunks of sizes 1, 0 and 2. -/
theorem accumulate_concatenates_chunks_witness :
    ([[1], [], [2, 3]] : List (List Nat)) ≠ [] ∧
    ((accumulate 7 [[1], [], [2, 3]]).memory =
        ([[1], [], [2, 3]] : List (List Nat)).flatten ++ [0] ∧
      (accumulate 7 [[1], [], [2, 3]]).size =
        ([[1], [], [2, 3]] : List (List Nat)).flatten.length) :=
  ⟨by decide, accumulate_concatenates_chunks 7 [[1], [], [2, 3]] (by decide)⟩

/-- Counterexample to C8 as stated for the empty chunk sequence: no
callback ever runs, so the buffer is the single uninitialized `malloc(1)`
byte (here 1), not the empty concatenation followed by a 0 terminator. -/
theorem accumulate_empty_sequence_unterminated :
    accumulate 1 [] = ⟨[1], 0⟩ ∧
      (accumulate 1 []).memory ≠ ([] : List (List Nat)).flatten ++ [0] :=
  ⟨rfl, by decide⟩

/-- Claim C9: the request payload is a JSON object carrying the fixed
model identifier, max_tokens 1024, temperature 0.5, and a messages array
with exactly one element whose role is "user" and whose content is the
rendered template. -/
theorem request_json_fields (P D : String) :
    cJSON_GetObjectItem (request_json P D) "model" =
      some (Json.str "claude-3-7-sonnet-20250219") ∧
    cJSON_GetObjectItem (request_json P D) "max_tokens" = some (Json.num 1024) ∧
    cJSON_GetObjectItem (request_json P D) "temperature" = some (Json.num (1 / 2)) ∧
    cJSON_GetObjectItem (request_json P D) "messages" =
      some (Json.arr [Json.obj
        [("role", Json.str "user"),
         ("content", Json.str (spec_render P D))]]) := by
  refine ⟨rfl, rfl, rfl, ?_⟩
  have hmsg : cJSON_GetObjectItem (request_json P D) "messages" =
      some (Json.arr [Json.obj
        [("role", Json.str "user"),
         ("content", Json.str (render_content P D))]]) := rfl
  rw [hmsg, render_eq_spec]

/-- Claim C10 (amended): the key placed in the x-api-key header is the key
file's content with all leading and trailing whitespace (space, tab, CR,
NL) removed, provided the trimmed key fits the 512-byte header buffer
(at most 500 characters after the 11-character header name). -/
theorem auth_header_carries_trimmed_key (content : List Char)
    (h : (spec_trim content).length ≤ 500) :
    header_for_key_file content = "x-api-key: ".data ++ spec_trim content := by
  unfold header_for_key_file auth_header read_api_key
  rw [trim_eq_spec_trim]
  apply List.take_of_length_le
  rw [List.length_append]
  have h11 : ("x-api-key: ".data).length = 11 := rfl
  omega

/-- Witness for C10 on a key file content with surrounding whitespace. -/
theorem auth_header_carries_trimmed_key_witness :
    (spec_trim ("  sk-test\n" : String).data).length ≤ 500 ∧
    header_for_key_file ("  sk-test\n" : String).data =
      "x-api-key: ".data ++ spec_trim ("  sk-test\n" : String).data :=
  ⟨by decide, auth_header_carries_trimmed_key ("  sk-test\n" : String).data (by decide)⟩

/-- Counterexample to C10 as stated: for a key of 501 characters the
512-byte `snprintf` buffer truncates the header, so the header does not
carry the whole trimmed key. -/
theorem auth_header_truncates_long_key :
    header_for_key_file (List.replicate 501 'a') ≠
      "x-api-key: ".data ++ spec_trim (List.replicate 501 'a') := by
  have h11 : ("x-api-key: ".data).length = 11 := rfl
  have htrim : spec_trim (List.replicate 501 'a') = List.replicate 501 'a' := by
    unfold spec_trim
    have hdrop : ∀ n : Nat, (List.replicate n 'a').dropWhile is_trim_char =
        List.replicate n 'a' := by
      intro n
      cases n with
      | zero => rfl
      | succ m =>
        rw [List.replicate_succ, List.dropWhile_cons_of_neg (by decide)]
    rw [hdrop, List.reverse_replicate, hdrop, List.reverse_replicate]
  have hkey : read_api_key (List.replicate 501 'a') = List.replicate 501 'a' := by
    unfold read_api_key
    rw [trim_eq_spec_trim, htrim]
  intro h
  have hlen := congrArg List.length h
  rw [htrim] at hlen
  unfold header_for_key_file auth_header at hlen
  rw [hkey, List.length_take, List.length_append, List.length_replicate, h11] at hlen
  exact absurd hlen (by decide)

end CommitAI
